import Mathlib

/-!
Verification of the document-tree-to-markup generator of
`figma-mcp-server` (src/server.js).  The generator's pure core is embedded
shallowly: pixel coordinates and color channels become rationals, the JS
`Math.round` becomes `jsRound`, optional JSON fields become `Option`, and
the fallible top-level generator returns `Except`.
-/

/-- JS `Math.round`: round half toward positive infinity, `⌊x + 1/2⌋`. -/
def jsRound (q : ℚ) : Int := ⌊q + 1 / 2⌋

/-- A Figma `absoluteBoundingBox` rectangle. -/
structure Box where
  x : ℚ
  y : ℚ
  width : ℚ
  height : ℚ
deriving DecidableEq

/-- A Figma solid-fill color: `{ r, g, b }` floats 0..1; each channel may be
absent (the source reads `c.r ?? 0`). -/
structure Color where
  r : Option ℚ
  g : Option ℚ
  b : Option ℚ
deriving DecidableEq

/-- A fill descriptor: a `type` tag, an optional `color`, an optional numeric
`opacity` (a non-numeric opacity is modelled as `none`, which is what the
source's `typeof`-check reduces it to). -/
structure Fill where
  type : String
  color : Option Color
  opacity : Option ℚ
deriving DecidableEq

/-- The `style` object of a TEXT node; only `fontSize` is read. -/
structure TextStyle where
  fontSize : Option ℚ
deriving DecidableEq

/-- A node of the Figma document tree (the fields the generator reads). -/
inductive FNode : Type where
  | mk : (id : String) → (name : String) → (type : String) →
      (absoluteBoundingBox : Option Box) → (fills : List Fill) →
      (characters : Option String) → (style : Option TextStyle) →
      (children : List FNode) → FNode

def FNode.id : FNode → String
  | .mk i _ _ _ _ _ _ _ => i

def FNode.name : FNode → String
  | .mk _ n _ _ _ _ _ _ => n

def FNode.type : FNode → String
  | .mk _ _ t _ _ _ _ _ => t

def FNode.absoluteBoundingBox : FNode → Option Box
  | .mk _ _ _ b _ _ _ _ => b

def FNode.fills : FNode → List Fill
  | .mk _ _ _ _ f _ _ _ => f

def FNode.characters : FNode → Option String
  | .mk _ _ _ _ _ c _ _ => c

def FNode.style : FNode → Option TextStyle
  | .mk _ _ _ _ _ _ s _ => s

def FNode.children : FNode → List FNode
  | .mk _ _ _ _ _ _ _ ch => ch

@[simp] theorem FNode.id_mk : (FNode.mk i n t b f c s ch).id = i := rfl

@[simp] theorem FNode.name_mk : (FNode.mk i n t b f c s ch).name = n := rfl

@[simp] theorem FNode.type_mk : (FNode.mk i n t b f c s ch).type = t := rfl

@[simp] theorem FNode.absoluteBoundingBox_mk :
    (FNode.mk i n t b f c s ch).absoluteBoundingBox = b := rfl

@[simp] theorem FNode.fills_mk : (FNode.mk i n t b f c s ch).fills = f := rfl

@[simp] theorem FNode.characters_mk :
    (FNode.mk i n t b f c s ch).characters = c := rfl

@[simp] theorem FNode.style_mk : (FNode.mk i n t b f c s ch).style = s := rfl

@[simp] theorem FNode.children_mk :
    (FNode.mk i n t b f c s ch).children = ch := rfl

/-- The parsed Figma file payload; the generator only reads `.document`. -/
structure FigmaFile where
  document : FNode

/-- Total number of nodes in a forest (each node counts itself plus its
subtree); the termination measure of every queue loop below. -/
def sizeL : List FNode → Nat
  | [] => 0
  | .mk _ _ _ _ _ _ _ cs :: rest => 1 + sizeL cs + sizeL rest

theorem sizeL_cons (n : FNode) (rest : List FNode) :
    sizeL (n :: rest) = 1 + sizeL n.children + sizeL rest := by
  cases n
  simp [sizeL, FNode.children]

theorem sizeL_append : ∀ (a b : List FNode),
    sizeL (a ++ b) = sizeL a + sizeL b := by
  intro a b
  induction a with
  | nil => simp [sizeL]
  | cons n rest ih =>
    rw [List.cons_append, sizeL_cons, sizeL_cons, ih]
    omega

/-! String constants of the generator (tag names, template pieces). -/

def solidStr : String := "SOLID"

def textStr : String := "TEXT"

def frameStr : String := "FRAME"

def componentStr : String := "COMPONENT"

def instanceStr : String := "INSTANCE"

def groupStr : String := "GROUP"

def rectangleStr : String := "RECTANGLE"

def strRgbaOpen : String := "rgba("

def strCommaSep : String := ", "

def strRgbaClose : String := ")"

def strPosAbsolute : String := "position: \x27absolute\x27"

def strLeft : String := "left: "

def strTop : String := "top: "

def strWidth : String := "width: "

def strHeight : String := "height: "

def strPx : String := "px"

def strBgOpen : String := "background: \x27"

def strQuote : String := "\x27"

def strFontSize : String := "fontSize: "

def strDivOpen : String := "<div style=\x7b\x7b"

def strDivMid : String := "\x7d\x7d>"

def strDivClose : String := "</div>"

def strChildrenPlaceholder : String := "\x7b/\x2a children inserted by generator \x2a/\x7d"

def strNewline : String := "\n"

def emptyStr : String := ""

/-- `colorObjToRgba(c, a)` of the source: each channel is
`Math.round((c.r ?? 0) * 255)`; the alpha slot is `a` (in the source a
non-number `a` falls back to 1, which the typed embedding makes vacuous
since `a : ℚ` is always a number). -/
def colorObjToRgba (c : Color) (a : ℚ) : String :=
  strRgbaOpen ++ toString (jsRound ((c.r.getD 0) * 255)) ++ strCommaSep ++
    toString (jsRound ((c.g.getD 0) * 255)) ++ strCommaSep ++
    toString (jsRound ((c.b.getD 0) * 255)) ++ strCommaSep ++
    toString a ++ strRgbaClose

/-- `fillToCssColor(fill)` of the source: `null` for a missing fill; for a
`SOLID` fill carrying a color, delegate to `colorObjToRgba` with the numeric
opacity (default 1); `null` otherwise. -/
def fillToCssColor : Option Fill → Option String
  | none => none
  | some fill =>
    if fill.type = solidStr then
      match fill.color with
      | some c => some (colorObjToRgba c (fill.opacity.getD 1))
      | none => none
    else none

/-- Entity for `&` (the replacement string `&amp;` as characters). -/
def ampEntity : List Char := ['&', 'a', 'm', 'p', ';']

/-- Entity for `<` (the replacement string `&lt;` as characters). -/
def ltEntity : List Char := ['&', 'l', 't', ';']

/-- Entity for `>` (the replacement string `&gt;` as characters). -/
def gtEntity : List Char := ['&', 'g', 't', ';']

/-- Global single-character replacement, the embedding of the source's
`String.prototype.replace` with a global one-character regex. -/
def replaceAll (c : Char) (rep : List Char) : List Char → List Char
  | [] => []
  | a :: rest =>
    if a = c then rep ++ replaceAll c rep rest else a :: replaceAll c rep rest

/-- The three chained replacements of `escapeJsxText`, in source order:
`&` first, then `<`, then `>`. -/
def escList (l : List Char) : List Char :=
  replaceAll '>' gtEntity (replaceAll '<' ltEntity (replaceAll '&' ampEntity l))

/-- `escapeJsxText(s)` of the source. -/
def escapeJsxText (s : String) : String := String.mk (escList s.data)

/-- Queue search shared by both branches of `findFrameNode`: pop the front,
return it if it satisfies `p`, otherwise push its children at the back. -/
def bfsFind (p : FNode → Bool) : List FNode → Option FNode
  | [] => none
  | n :: rest => if p n then some n else bfsFind p (rest ++ n.children)
termination_by l => sizeL l
decreasing_by
  simp only [sizeL_append, sizeL_cons]
  omega

/-- The five candidate type tags of the no-id first tier of `findFrameNode`. -/
def isFrameCandidate (c : FNode) : Bool :=
  c.type == frameStr || c.type == componentStr || c.type == instanceStr ||
    c.type == groupStr || c.type == rectangleStr

/-- First tier of the no-id branch of `findFrameNode`: scan pages in order,
inside each page scan its direct children in order, return the first
candidate-typed child. -/
def firstCandidate : List FNode → Option FNode
  | [] => none
  | page :: rest =>
    match page.children.find? isFrameCandidate with
    | some c => some c
    | none => firstCandidate rest

def isFrameType (n : FNode) : Bool := n.type == frameStr

/-- `findFrameNode(documentNode, nodeId)` of the source.  With an id: a
breadth-first queue search from the document root.  Without: first tier over
pages' direct children, then a breadth-first queue search over the pages'
subtrees for a literal `FRAME`.  (The source's early `return null` when the
document has no `children` coincides with both tiers failing on `[]`.) -/
def findFrameNode (documentNode : FNode) (nodeId : Option String) : Option FNode :=
  match nodeId with
  | some tid => bfsFind (fun n => n.id == tid) [documentNode]
  | none =>
    match firstCandidate documentNode.children with
    | some c => some c
    | none => bfsFind isFrameType documentNode.children

/-- The guarded box of `nodeToJsx`: a missing `absoluteBoundingBox`
degrades to the zero rectangle. -/
def boxOf (node : FNode) : Box := node.absoluteBoundingBox.getD ⟨0, 0, 0, 0⟩

/-- `left = Math.round(box.x - (frameBox?.x || 0))` (on rationals `x || 0`
only remaps 0 to 0, so it is the identity). -/
def leftOf (node : FNode) (frameBox : Box) : Int :=
  jsRound ((boxOf node).x - frameBox.x)

/-- `top = Math.round(box.y - (frameBox?.y || 0))`. -/
def topOf (node : FNode) (frameBox : Box) : Int :=
  jsRound ((boxOf node).y - frameBox.y)

/-- `width = Math.round(box.width || 0)`. -/
def widthOf (node : FNode) : Int := jsRound (boxOf node).width

/-- `height = Math.round(box.height || 0)`. -/
def heightOf (node : FNode) : Int := jsRound (boxOf node).height

/-- The initial `styleParts` array of `nodeToJsx`. -/
def baseStyleParts (node : FNode) (fb : Box) : List String :=
  [strPosAbsolute,
   strLeft ++ toString (leftOf node fb) ++ strPx,
   strTop ++ toString (topOf node fb) ++ strPx,
   strWidth ++ toString (widthOf node) ++ strPx,
   strHeight ++ toString (heightOf node) ++ strPx]

/-- The background resolution of `nodeToJsx`: only `node.fills[0]` is ever
consulted (`fillToCssColor(node.fills[0])`, guarded by a non-empty array,
which is exactly `head?`). -/
def bgOf (node : FNode) : Option String := fillToCssColor node.fills.head?

/-- `styleParts` after the conditional `background` push. -/
def stylePartsWithBg (node : FNode) (fb : Box) : List String :=
  match bgOf node with
  | some bg => baseStyleParts node fb ++ [strBgOpen ++ bg ++ strQuote]
  | none => baseStyleParts node fb

/-- The `fontSize` lookup of `nodeToJsx`: `node.style && node.style.fontSize`. -/
def fontSizeOf (node : FNode) : Option ℚ := node.style.bind TextStyle.fontSize

/-- `styleParts` of the TEXT branch after the conditional `fontSize` push;
the source's `if (fontSize)` is JS truthiness, so a present fontSize of 0 is
not pushed. -/
def textStyleParts (node : FNode) (fb : Box) : List String :=
  match fontSizeOf node with
  | some fs =>
    if fs = 0 then stylePartsWithBg node fb
    else stylePartsWithBg node fb ++ [strFontSize ++ toString fs ++ strPx]
  | none => stylePartsWithBg node fb

/-- `nodeToJsx(node, frameBox)` of the source: one `<div>` fragment with the
joined style parts; TEXT nodes get their escaped `characters` as body, other
nodes get a placeholder comment when they have children. -/
def nodeToJsx (node : FNode) (frameBox : Box) : String :=
  if node.type = textStr then
    strDivOpen ++ String.intercalate strCommaSep (textStyleParts node frameBox) ++
      strDivMid ++ escapeJsxText (node.characters.getD emptyStr) ++ strDivClose
  else
    strDivOpen ++ String.intercalate strCommaSep (stylePartsWithBg node frameBox) ++
      strDivMid ++
      (if node.children.isEmpty then emptyStr else strChildrenPlaceholder) ++
      strDivClose

/-- The queue loop of `traverseAndGenerate`: pop the front node, emit its
fragment, push its children at the back. -/
def traverseLoop (fb : Box) : List FNode → List String
  | [] => []
  | n :: rest => nodeToJsx n fb :: traverseLoop fb (rest ++ n.children)
termination_by l => sizeL l
decreasing_by
  simp only [sizeL_append, sizeL_cons]
  omega

/-- `traverseAndGenerate(nodes, frameBox)` of the source (`join('\n')`). -/
def traverseAndGenerate (nodes : List FNode) (frameBox : Box) : String :=
  String.intercalate strNewline (traverseLoop frameBox nodes)

def appTemplatePrefix : String := "import React from \"react\";\n\nexport default function App() \x7b\n  return (\n    <div style=\x7b\x7b position: \x27relative\x27, width: "

def appTemplateMid1 : String := " , height: "

def appTemplateMid2 : String := ", border: \x271px solid #e5e7eb\x27 \x7d\x7d>\n      "

def appTemplateSuffix : String := "\n    </div>\n  );\n\x7d\n"

/-- `reactAppFromFrame(frameNode)` of the source: default 800×600 zero-origin
box when the frame has none, flatten the frame's direct children, wrap in the
root container template. -/
def reactAppFromFrame (frameNode : FNode) : String :=
  let frameBox := frameNode.absoluteBoundingBox.getD ⟨0, 0, 800, 600⟩
  let childrenJsx := traverseAndGenerate frameNode.children frameBox
  appTemplatePrefix ++ toString (jsRound frameBox.width) ++ appTemplateMid1 ++
    toString (jsRound frameBox.height) ++ appTemplateMid2 ++ childrenJsx ++
    appTemplateSuffix

def kAppJsx : String := "App.jsx"

def kIndexHtml : String := "index.html"

def kPackageJson : String := "package.json"

def kReadme : String := "README.md"

/-- `JSON.stringify(pkg, null, 2)` of the fixed package manifest. -/
def pkgJsonText : String := "\x7b\n  \"name\": \"figma-generated-app\",\n  \"version\": \"0.0.0\",\n  \"private\": true,\n  \"scripts\": \x7b\n    \"dev\": \"vite\"\n  \x7d,\n  \"dependencies\": \x7b\n    \"react\": \"^18.2.0\",\n    \"react-dom\": \"^18.2.0\"\n  \x7d,\n  \"devDependencies\": \x7b\n    \"vite\": \"^5.0.0\"\n  \x7d\n\x7d"

def indexHtmlText : String := "<!doctype html>\n<html>\n  <head>\n    <meta charset=\"utf-8\" />\n    <meta name=\"viewport\" content=\"width=device-width, initial-scale=1.0\" />\n    <title>Figma Generated App</title>\n  </head>\n  <body>\n    <div id=\"root\"></div>\n    <script type=\"module\">\n      import React from \"react\";\n      import \x7b createRoot \x7d from \"react-dom/client\";\n      import App from \"./App.jsx\";\n      const root = createRoot(document.getElementById(\"root\"));\n      root.render(React.createElement(App));\n    </script>\n  </body>\n</html>\n"

def readmeFullText : String := "This code was auto-generated from a Figma file by a local MCP server.\nRun:\n  npm install\n  npm run dev\nThen open: http://localhost:5173 (Vite default)\n"

def readmeFallbackPrefix : String := "Generated from Figma file: fallback frame ("

def readmeFallbackSuffix : String := ")"

def noFrameMsg : String := "No frame found in file."

/-- The full artifact set of the found-frame branch. -/
def fullFiles (frame : FNode) : List (String × String) :=
  [(kAppJsx, reactAppFromFrame frame), (kIndexHtml, indexHtmlText),
   (kPackageJson, pkgJsonText), (kReadme, readmeFullText)]

/-- The reduced artifact set of the fallback branch. -/
def fallbackFiles (fallback : FNode) : List (String × String) :=
  [(kAppJsx, reactAppFromFrame fallback),
   (kReadme, readmeFallbackPrefix ++ fallback.name ++ readmeFallbackSuffix)]

/-- The single-level fallback of `generateFilesFromFigmaFile`:
`doc.children[0].children[0]` guarded at every step. -/
def fallbackNodeOf (doc : FNode) : Option FNode :=
  match doc.children with
  | page :: _ => page.children.head?
  | [] => none

/-- `generateFilesFromFigmaFile(fileJson, nodeId)` of the source; the thrown
`Error('No frame found in file.')` becomes `Except.error`. -/
def generateFilesFromFigmaFile (fileJson : FigmaFile) (nodeId : Option String) :
    Except String (List (String × String)) :=
  match findFrameNode fileJson.document nodeId with
  | some frame => .ok (fullFiles frame)
  | none =>
    match fallbackNodeOf fileJson.document with
    | some fallback => .ok (fallbackFiles fallback)
    | none => .error noFrameMsg

def fullKeys : List String := [kAppJsx, kIndexHtml, kPackageJson, kReadme]

def fallbackKeys : List String := [kAppJsx, kReadme]

/-! Specification-side definitions, used to state the claims: breadth-first
visitation order, the set of all nodes of a forest, per-character escaping,
character counting, and the claim's formulation of the no-id locator. -/

/-- Breadth-first visitation order of a forest: pop the front node, then
enqueue its children in listed order. -/
def bfs : List FNode → List FNode
  | [] => []
  | n :: rest => n :: bfs (rest ++ n.children)
termination_by l => sizeL l
decreasing_by
  simp only [sizeL_append, sizeL_cons]
  omega

/-- All nodes of a forest in depth-first preorder; used as the reference
enumeration of "every node of the subtree". -/
def allNodes : List FNode → List FNode
  | [] => []
  | n :: rest => n :: (allNodes n.children ++ allNodes rest)
termination_by l => sizeL l
decreasing_by
  all_goals simp only [sizeL_append, sizeL_cons]
  all_goals omega

/-- Per-character entity escaping, the specification's description of text
escaping: `&`, `<`, `>` become their entity forms, all else is unchanged. -/
def escChar (c : Char) : List Char :=
  if c = '&' then ampEntity
  else if c = '<' then ltEntity
  else if c = '>' then gtEntity
  else [c]

/-- Occurrences of a character in a character list. -/
def countChar (c : Char) : List Char → Nat
  | [] => 0
  | a :: rest => (if a = c then 1 else 0) + countChar c rest

/-- The direct children of all pages, in page order; the claim's description
of the no-id first tier. -/
def childrenOfPages (doc : FNode) : List FNode :=
  (doc.children.map FNode.children).flatten

/-- The claim-side (amended) formulation of the no-id locator: first
candidate-typed direct child of a page, else the first `FRAME` in
breadth-first order over the pages' subtrees (the document root itself is
not searched). -/
def locateNoIdSpec (doc : FNode) : Option FNode :=
  match (childrenOfPages doc).find? isFrameCandidate with
  | some c => some c
  | none => (bfs doc.children).find? isFrameType


/-! Concrete fixture inputs used by the claim theorems below. -/

def fbC1 : Box := ⟨10, 20, 100, 50⟩

def fbZero : Box := ⟨0, 0, 400, 300⟩

def c1NoBoxNode : FNode := ⟨r"n1", r"nobox", r"RECTANGLE", none, [], none, none, []⟩

def c1Box : Box := ⟨10, 20, 50, 30⟩

def c1BoxNode : FNode := ⟨r"n2", r"box", r"RECTANGLE", some c1Box, [], none, none, []⟩

def redColor : Color := ⟨some 1, some 0, some 0⟩

def gradFill : Fill := ⟨r"GRADIENT_LINEAR", some redColor, none⟩

def redFill : Fill := ⟨r"SOLID", some redColor, none⟩

def c2Node : FNode := ⟨r"c2", r"c2", r"RECTANGLE", none, [gradFill, redFill], none, none, []⟩

def c2SolidNode : FNode := ⟨r"c2b", r"c2b", r"RECTANGLE", none, [redFill], none, none, []⟩

def exRawC3 : String := "A & B < C"

def exEscC3 : String := "A &amp; B &lt; C"

def c3Amp : String := "&"

def c3AmpOnce : String := "&amp;"

def c3AmpTwice : String := "&amp;amp;"

def c4Frame : FNode := ⟨r"f", r"Frame 1", r"FRAME", some ⟨0, 0, 400, 300⟩, [], none, none, []⟩

def c4Page : FNode := ⟨r"p", r"Page 1", r"CANVAS", none, [], none, none, [c4Frame]⟩

def c4Doc : FNode := ⟨r"d", r"Document", r"DOCUMENT", none, [], none, none, [c4Page]⟩

def c4EmptyDoc : FNode := ⟨r"d0", r"Document", r"DOCUMENT", none, [], none, none, []⟩

def c4Odd : FNode := ⟨r"t", r"Odd", r"TEXT", none, [], some (r"x"), none, []⟩

def c4Page2 : FNode := ⟨r"p2", r"Page", r"CANVAS", none, [], none, none, [c4Odd]⟩

def c4Doc2 : FNode := ⟨r"d2", r"Doc", r"DOCUMENT", none, [], none, none, [c4Page2]⟩

def c5D : FNode := ⟨r"D", r"D", r"RECTANGLE", none, [], none, none, []⟩

def c5B : FNode := ⟨r"B", r"B", r"RECTANGLE", none, [], none, none, []⟩

def c5C : FNode := ⟨r"C", r"C", r"GROUP", none, [], none, none, [c5D]⟩

def c6Page : FNode := ⟨r"1", r"page", r"PAGE", none, [], none, none, []⟩

def c6Doc : FNode := ⟨r"0", r"doc", r"FRAME", none, [], none, none, [c6Page]⟩

def c7B : FNode := ⟨r"B", r"inner", r"FRAME", none, [], none, none, []⟩

def c7Mid : FNode := ⟨r"M", r"mid", r"GROUP", none, [], none, none, [c7B]⟩

def c7Page : FNode := ⟨r"P", r"page", r"CANVAS", none, [], none, none, [c7Mid]⟩

def c7Doc : FNode := ⟨r"R", r"root", r"DOCUMENT", none, [], none, none, [c7Page]⟩

def c8Node : FNode := ⟨r"c8", r"t", r"TEXT", none, [], some (r"Hi"), some ⟨some 0⟩, []⟩

def c8WNode : FNode := ⟨r"c8w", r"t", r"TEXT", none, [], some (r"Hi"), some ⟨some 16⟩, []⟩

def c9Fill : Fill := ⟨r"SOLID", some redColor, some (1 / 2)⟩

def c10Fill : Fill := ⟨r"SOLID", none, none⟩

def c10Node : FNode := ⟨r"c10", r"c10", r"RECTANGLE", none, [c10Fill], none, none, []⟩

/-! General lemmas. -/

theorem jsRound_eq_of (q : ℚ) (z : ℤ) (h₁ : (z : ℚ) ≤ q + 1 / 2)
    (h₂ : q + 1 / 2 < z + 1) : jsRound q = z := by
  rw [jsRound, Int.floor_eq_iff]
  exact ⟨h₁, by exact_mod_cast h₂⟩

theorem countChar_append (c : Char) (a b : List Char) :
    countChar c (a ++ b) = countChar c a + countChar c b := by
  induction a with
  | nil => simp [countChar]
  | cons x rest ih =>
    simp [countChar, ih, List.append_eq]
    omega

theorem countChar_replaceAll_self (c : Char) (rep : List Char)
    (l : List Char) :
    countChar c (replaceAll c rep l) = countChar c rep * countChar c l := by
  induction l with
  | nil => simp [replaceAll, countChar]
  | cons a rest ih =>
    by_cases hac : a = c
    · simp [replaceAll, hac, countChar_append, countChar, ih]
      ring
    · simp [replaceAll, hac, countChar, ih]

theorem countChar_replaceAll_ne (c d : Char) (h : ¬d = c) (rep : List Char)
    (l : List Char) :
    countChar d (replaceAll c rep l) =
      countChar d rep * countChar c l + countChar d l := by
  induction l with
  | nil => simp [replaceAll, countChar]
  | cons a rest ih =>
    by_cases hac : a = c
    · have had : ¬a = d := fun hh => h (hh ▸ hac)
      have hcd : ¬c = d := fun hh => h hh.symm
      simp [replaceAll, hac, had, hcd, countChar_append, countChar, ih]
      ring
    · by_cases had : a = d
      · simp [replaceAll, hac, had, h, countChar, ih]
        ring
      · simp [replaceAll, hac, had, h, countChar, ih]

theorem length_replaceAll (c : Char) (rep : List Char) (l : List Char) :
    (replaceAll c rep l).length + countChar c l =
      l.length + rep.length * countChar c l := by
  induction l with
  | nil => simp [replaceAll, countChar]
  | cons a rest ih =>
    by_cases hac : a = c
    · simp [replaceAll, hac, countChar, Nat.mul_add, Nat.mul_one]
      omega
    · simp [replaceAll, hac, countChar]
      omega

theorem replaceAll_of_countChar_zero (c : Char) (rep : List Char)
    (l : List Char) (h : countChar c l = 0) : replaceAll c rep l = l := by
  induction l with
  | nil => simp [replaceAll]
  | cons a rest ih =>
    simp only [countChar] at h
    by_cases hac : a = c
    · rw [if_pos hac] at h
      omega
    · rw [if_neg hac] at h
      rw [replaceAll, if_neg hac, ih (by omega)]

theorem replaceAll_append (c : Char) (rep : List Char) (a b : List Char) :
    replaceAll c rep (a ++ b) = replaceAll c rep a ++ replaceAll c rep b := by
  induction a with
  | nil => simp [replaceAll]
  | cons x rest ih =>
    by_cases hxc : x = c
    · simp [replaceAll, hxc, ih, List.append_eq, List.append_assoc]
    · simp [replaceAll, hxc, ih, List.append_eq]

theorem escList_stats (l : List Char) :
    countChar '&' (escList l) =
        countChar '&' l + countChar '<' l + countChar '>' l ∧
      countChar '<' (escList l) = 0 ∧ countChar '>' (escList l) = 0 ∧
      (escList l).length =
        l.length + 4 * countChar '&' l + 3 * countChar '<' l +
          3 * countChar '>' l := by
  have t1 : countChar '&' (replaceAll '&' ampEntity l) = countChar '&' l := by
    rw [countChar_replaceAll_self]
    norm_num [show countChar '&' ampEntity = 1 from by decide]
  have t2 : countChar '<' (replaceAll '&' ampEntity l) = countChar '<' l := by
    rw [countChar_replaceAll_ne _ _ (by decide)]
    norm_num [show countChar '<' ampEntity = 0 from by decide]
  have t3 : countChar '>' (replaceAll '&' ampEntity l) = countChar '>' l := by
    rw [countChar_replaceAll_ne _ _ (by decide)]
    norm_num [show countChar '>' ampEntity = 0 from by decide]
  have t4 : (replaceAll '&' ampEntity l).length =
      l.length + 4 * countChar '&' l := by
    have := length_replaceAll '&' ampEntity l
    rw [show ampEntity.length = 5 from by decide] at this
    omega
  have u1 : countChar '&' (replaceAll '<' ltEntity (replaceAll '&' ampEntity l)) =
      countChar '&' l + countChar '<' l := by
    rw [countChar_replaceAll_ne _ _ (by decide), t1, t2]
    norm_num [show countChar '&' ltEntity = 1 from by decide]
    omega
  have u2 : countChar '<' (replaceAll '<' ltEntity (replaceAll '&' ampEntity l)) = 0 := by
    rw [countChar_replaceAll_self]
    norm_num [show countChar '<' ltEntity = 0 from by decide]
  have u3 : countChar '>' (replaceAll '<' ltEntity (replaceAll '&' ampEntity l)) =
      countChar '>' l := by
    rw [countChar_replaceAll_ne _ _ (by decide), t2, t3]
    norm_num [show countChar '>' ltEntity = 0 from by decide]
  have u4 : (replaceAll '<' ltEntity (replaceAll '&' ampEntity l)).length =
      l.length + 4 * countChar '&' l + 3 * countChar '<' l := by
    have := length_replaceAll '<' ltEntity (replaceAll '&' ampEntity l)
    rw [show ltEntity.length = 4 from by decide, t2, t4] at this
    omega
  refine ⟨?_, ?_, ?_, ?_⟩
  · rw [escList, countChar_replaceAll_ne _ _ (by decide), u1, u3]
    norm_num [show countChar '&' gtEntity = 1 from by decide]
    omega
  · rw [escList, countChar_replaceAll_ne _ _ (by decide), u2, u3]
    norm_num [show countChar '<' gtEntity = 0 from by decide]
  · rw [escList, countChar_replaceAll_self]
    norm_num [show countChar '>' gtEntity = 0 from by decide]
  · rw [escList]
    have := length_replaceAll '>' gtEntity
      (replaceAll '<' ltEntity (replaceAll '&' ampEntity l))
    rw [show gtEntity.length = 4 from by decide, u3, u4] at this
    omega

theorem escList_idem_iff (l : List Char) :
    escList (escList l) = escList l ↔
      countChar '&' l = 0 ∧ countChar '<' l = 0 ∧ countChar '>' l = 0 := by
  constructor
  · intro h
    have hlen := congrArg List.length h
    have s1 := escList_stats l
    have s2 := escList_stats (escList l)
    omega
  · rintro ⟨hA, hL, hG⟩
    have hfix : escList l = l := by
      rw [escList, replaceAll_of_countChar_zero _ _ _ hA,
        replaceAll_of_countChar_zero _ _ _ hL,
        replaceAll_of_countChar_zero _ _ _ hG]
    rw [hfix]
    exact hfix

theorem replaceAll_cons (c : Char) (rep : List Char) (a : Char)
    (rest : List Char) :
    replaceAll c rep (a :: rest) =
      (if a = c then rep else [a]) ++ replaceAll c rep rest := by
  by_cases hac : a = c
  · simp [replaceAll, hac]
  · simp [replaceAll, hac]

theorem escList_cons (a : Char) (rest : List Char) :
    escList (a :: rest) = escChar a ++ escList rest := by
  simp only [escList, replaceAll_cons, replaceAll_append]
  congr 1
  by_cases h1 : a = '&'
  · subst h1
    decide
  · by_cases h2 : a = '<'
    · subst h2
      decide
    · by_cases h3 : a = '>'
      · subst h3
        decide
      · simp [replaceAll, h1, h2, h3, escChar]

theorem escList_eq_flatMap (l : List Char) : escList l = l.flatMap escChar := by
  induction l with
  | nil => rfl
  | cons a rest ih => rw [escList_cons, ih, List.flatMap_cons]

theorem bfs_nil : bfs [] = [] := by simp [bfs]

theorem bfs_cons (n : FNode) (rest : List FNode) :
    bfs (n :: rest) = n :: bfs (rest ++ n.children) := by simp [bfs]

theorem allNodes_nil : allNodes [] = [] := by simp [allNodes]

theorem allNodes_cons (n : FNode) (rest : List FNode) :
    allNodes (n :: rest) = n :: (allNodes n.children ++ allNodes rest) := by
  simp [allNodes]

theorem bfsFind_nil (p : FNode → Bool) : bfsFind p [] = none := by
  simp [bfsFind]

theorem bfsFind_cons (p : FNode → Bool) (n : FNode) (rest : List FNode) :
    bfsFind p (n :: rest) =
      if p n then some n else bfsFind p (rest ++ n.children) := by
  simp [bfsFind]

theorem traverseLoop_nil (fb : Box) : traverseLoop fb [] = [] := by
  simp [traverseLoop]

theorem traverseLoop_cons (fb : Box) (n : FNode) (rest : List FNode) :
    traverseLoop fb (n :: rest) =
      nodeToJsx n fb :: traverseLoop fb (rest ++ n.children) := by
  simp [traverseLoop]

theorem allNodes_append : ∀ (a b : List FNode),
    allNodes (a ++ b) = allNodes a ++ allNodes b := by
  intro a b
  induction a with
  | nil => simp [allNodes_nil]
  | cons n rest ih =>
    rw [List.cons_append, allNodes_cons, allNodes_cons, ih]
    simp [List.append_assoc]

theorem bfsFind_eq_find? (p : FNode → Bool) (l : List FNode) :
    bfsFind p l = (bfs l).find? p := by
  have H : ∀ (k : Nat) (l : List FNode), sizeL l ≤ k →
      bfsFind p l = (bfs l).find? p := by
    intro k
    induction k with
    | zero =>
      intro l hl
      cases l with
      | nil => simp [bfsFind_nil, bfs_nil]
      | cons n rest =>
        rw [sizeL_cons] at hl
        omega
    | succ k ih =>
      intro l hl
      cases l with
      | nil => simp [bfsFind_nil, bfs_nil]
      | cons n rest =>
        rw [sizeL_cons] at hl
        rw [bfsFind_cons, bfs_cons]
        by_cases hp : p n
        · rw [if_pos hp, List.find?_cons_of_pos _ hp]
        · rw [if_neg hp, List.find?_cons_of_neg _ (by simp [hp]),
            ih _ (by rw [sizeL_append]; omega)]
  exact H (sizeL l) l le_rfl

theorem bfs_perm_allNodes (l : List FNode) : (bfs l).Perm (allNodes l) := by
  have H : ∀ (k : Nat) (l : List FNode), sizeL l ≤ k →
      (bfs l).Perm (allNodes l) := by
    intro k
    induction k with
    | zero =>
      intro l hl
      cases l with
      | nil => simp [bfs_nil, allNodes_nil]
      | cons n rest =>
        rw [sizeL_cons] at hl
        omega
    | succ k ih =>
      intro l hl
      cases l with
      | nil => simp [bfs_nil, allNodes_nil]
      | cons n rest =>
        rw [sizeL_cons] at hl
        rw [bfs_cons, allNodes_cons]
        refine List.Perm.cons n ?_
        refine (ih _ (by rw [sizeL_append]; omega)).trans ?_
        rw [allNodes_append]
        exact List.perm_append_comm
  exact H (sizeL l) l le_rfl

theorem traverseLoop_eq_map (fb : Box) (l : List FNode) :
    traverseLoop fb l = (bfs l).map (fun n => nodeToJsx n fb) := by
  have H : ∀ (k : Nat) (l : List FNode), sizeL l ≤ k →
      traverseLoop fb l = (bfs l).map (fun n => nodeToJsx n fb) := by
    intro k
    induction k with
    | zero =>
      intro l hl
      cases l with
      | nil => simp [traverseLoop_nil, bfs_nil]
      | cons n rest =>
        rw [sizeL_cons] at hl
        omega
    | succ k ih =>
      intro l hl
      cases l with
      | nil => simp [traverseLoop_nil, bfs_nil]
      | cons n rest =>
        rw [sizeL_cons] at hl
        rw [traverseLoop_cons, bfs_cons, List.map_cons,
          ih _ (by rw [sizeL_append]; omega)]
  exact H (sizeL l) l le_rfl

theorem firstCandidate_eq_find? (pages : List FNode) :
    firstCandidate pages =
      ((pages.map FNode.children).flatten).find? isFrameCandidate := by
  induction pages with
  | nil => simp [firstCandidate]
  | cons p rest ih =>
    cases h : p.children.find? isFrameCandidate with
    | some c =>
      simp [firstCandidate, h, List.find?_append]
    | none =>
      simp [firstCandidate, h, List.find?_append, ih]

theorem jsRound_zero : jsRound 0 = 0 := by
  apply jsRound_eq_of
  · norm_num
  · norm_num

/-! Claim theorems. -/

/-- C1 (counterexample): a node without an `absoluteBoundingBox` against the
reference origin `(10, 20)` yields `left = -10`, `top = -20` — not the all-zero
geometry the claim asserts for a missing box. -/
theorem c1_missing_box_counterexample :
    c1NoBoxNode.absoluteBoundingBox = none ∧
      leftOf c1NoBoxNode fbC1 = -10 ∧ topOf c1NoBoxNode fbC1 = -20 ∧
      ¬(leftOf c1NoBoxNode fbC1 = 0 ∧ topOf c1NoBoxNode fbC1 = 0 ∧
        widthOf c1NoBoxNode = 0 ∧ heightOf c1NoBoxNode = 0) := by
  have hl : leftOf c1NoBoxNode fbC1 = -10 := by
    have h : leftOf c1NoBoxNode fbC1 = jsRound (0 - 10) := by
      simp [leftOf, boxOf, c1NoBoxNode, fbC1]
    rw [h]
    apply jsRound_eq_of
    · norm_num
    · norm_num
  have ht : topOf c1NoBoxNode fbC1 = -20 := by
    have h : topOf c1NoBoxNode fbC1 = jsRound (0 - 20) := by
      simp [topOf, boxOf, c1NoBoxNode, fbC1]
    rw [h]
    apply jsRound_eq_of
    · norm_num
    · norm_num
  refine ⟨rfl, hl, ht, ?_⟩
  rintro ⟨h0, -, -, -⟩
  rw [hl] at h0
  exact absurd h0 (by decide)

/-- C1 (amended): the emitted geometry is `left = round(box.x - origin.x)`,
`top = round(box.y - origin.y)`, `width = round(box.width)`,
`height = round(box.height)` when the box is present; when it is absent the
box degrades to the zero rectangle, so `left = round(0 - origin.x)`,
`top = round(0 - origin.y)` (zero only for a zero-rounding origin) and
`width = height = 0`; the fragment's style declares exactly these values. -/
theorem c1_fragment_geometry (node : FNode) (fb : Box) :
    (∀ b, node.absoluteBoundingBox = some b →
      leftOf node fb = jsRound (b.x - fb.x) ∧
        topOf node fb = jsRound (b.y - fb.y) ∧
        widthOf node = jsRound b.width ∧ heightOf node = jsRound b.height) ∧
      (node.absoluteBoundingBox = none →
        leftOf node fb = jsRound (0 - fb.x) ∧
          topOf node fb = jsRound (0 - fb.y) ∧
          widthOf node = 0 ∧ heightOf node = 0) ∧
      baseStyleParts node fb =
        [strPosAbsolute,
         strLeft ++ toString (leftOf node fb) ++ strPx,
         strTop ++ toString (topOf node fb) ++ strPx,
         strWidth ++ toString (widthOf node) ++ strPx,
         strHeight ++ toString (heightOf node) ++ strPx] := by
  refine ⟨?_, ?_, rfl⟩
  · intro b hb
    refine ⟨?_, ?_, ?_, ?_⟩ <;> simp [leftOf, topOf, widthOf, heightOf, boxOf, hb]
  · intro hb
    have hw : widthOf node = 0 := by
      simp [widthOf, boxOf, hb]
      exact jsRound_zero
    have hh : heightOf node = 0 := by
      simp [heightOf, boxOf, hb]
      exact jsRound_zero
    refine ⟨?_, ?_, hw, hh⟩ <;> simp [leftOf, topOf, boxOf, hb]

/-- C1 (witness): the present-box case at the node with box `(10, 20, 50, 30)`. -/
theorem c1_fragment_geometry_witness :
    leftOf c1BoxNode fbZero = jsRound (c1Box.x - fbZero.x) ∧
      topOf c1BoxNode fbZero = jsRound (c1Box.y - fbZero.y) ∧
      widthOf c1BoxNode = jsRound c1Box.width ∧
      heightOf c1BoxNode = jsRound c1Box.height :=
  (c1_fragment_geometry c1BoxNode fbZero).1 c1Box rfl

/-- C2 (counterexample): with `fills = [gradient, red solid]` the fragment
declares no background at all — the non-solid first fill suppresses the
background even though a later `SOLID` fill yields a color, contradicting the
claim that the first SOLID fill in the sequence is used. -/
theorem c2_first_fill_counterexample :
    c2Node.fills = [gradFill, redFill] ∧ ¬gradFill.type = solidStr ∧
      redFill.type = solidStr ∧
      fillToCssColor (some redFill) = some (colorObjToRgba redColor 1) ∧
      bgOf c2Node = none ∧
      stylePartsWithBg c2Node fbZero = baseStyleParts c2Node fbZero := by
  have hbg : bgOf c2Node = none := by
    simp +decide [bgOf, c2Node, fillToCssColor, gradFill, solidStr]
  refine ⟨rfl, by decide, rfl, ?_, hbg, ?_⟩
  · simp [fillToCssColor, redFill, solidStr, colorObjToRgba]
  · simp [stylePartsWithBg, hbg]

/-- C2 (amended): the background comes from `fills[0]` only — it is declared
exactly when the first fill is `SOLID` and carries a color; a non-solid first
fill (or an empty fills list) yields no background declaration regardless of
any later SOLID fills. -/
theorem c2_background_from_first_fill (node : FNode) (fb : Box) :
    (∀ f rest, node.fills = f :: rest → f.type = solidStr →
      ∀ c, f.color = some c →
        stylePartsWithBg node fb =
          baseStyleParts node fb ++
            [strBgOpen ++ colorObjToRgba c (f.opacity.getD 1) ++ strQuote]) ∧
      (∀ f rest, node.fills = f :: rest → ¬f.type = solidStr →
        stylePartsWithBg node fb = baseStyleParts node fb) ∧
      (node.fills = [] → stylePartsWithBg node fb = baseStyleParts node fb) := by
  refine ⟨?_, ?_, ?_⟩
  · intro f rest hf htype c hc
    simp [stylePartsWithBg, bgOf, hf, fillToCssColor, htype, hc]
  · intro f rest hf htype
    simp [stylePartsWithBg, bgOf, hf, fillToCssColor, htype]
  · intro hf
    simp [stylePartsWithBg, bgOf, hf, fillToCssColor]

/-- C2 (witness): a node whose single fill is solid red gets the red
background declaration. -/
theorem c2_background_from_first_fill_witness :
    stylePartsWithBg c2SolidNode fbZero =
      baseStyleParts c2SolidNode fbZero ++
        [strBgOpen ++ colorObjToRgba redColor (redFill.opacity.getD 1) ++
          strQuote] :=
  (c2_background_from_first_fill c2SolidNode fbZero).1 redFill [] rfl rfl
    redColor rfl

/-- C3 (counterexample): escaping is not idempotent — re-escaping the escaped
form of `"&"` double-escapes the ampersand in `&amp;`, yielding `&amp;amp;`. -/
theorem c3_double_escape_counterexample :
    escapeJsxText c3Amp = c3AmpOnce ∧
      escapeJsxText (escapeJsxText c3Amp) = c3AmpTwice ∧
      ¬escapeJsxText (escapeJsxText c3Amp) = escapeJsxText c3Amp := by
  refine ⟨by decide, by decide, by decide⟩

/-- C3 (amended): escaping `"A & B < C"` yields `"A &amp; B &lt; C"`, but
`escapeJsxText` is idempotent only on strings containing none of `&`, `<`,
`>`; on any string containing one of them (in particular on every escaped
form of such a string) re-escaping double-escapes the introduced ampersands. -/
theorem c3_escape_idempotent_iff (s : String) :
    (escapeJsxText (escapeJsxText s) = escapeJsxText s ↔
      countChar '&' s.data = 0 ∧ countChar '<' s.data = 0 ∧
        countChar '>' s.data = 0) ∧
      escapeJsxText exRawC3 = exEscC3 := by
  refine ⟨?_, by decide⟩
  have hdata : (escapeJsxText s).data = escList s.data := rfl
  constructor
  · intro h
    have h2 : escList (escList s.data) = escList s.data := by
      have := congrArg String.data h
      rw [hdata] at this
      exact this
    exact (escList_idem_iff s.data).mp h2
  · intro h
    have h2 : escList (escList s.data) = escList s.data :=
      (escList_idem_iff s.data).mpr h
    show String.mk (escList (escapeJsxText s).data) = escapeJsxText s
    rw [hdata, h2]
    rfl

/-- C4: the generator returns the full four-artifact set when the locator
finds a frame; when the locator fails it returns the reduced two-artifact
set (markup component plus a readme naming the fallback frame) built from the
first page's first child if that exists; it errors with the no-frame message
exactly when both fail; and every successful result is one of the two
complete key sets, never a partial mapping. -/
theorem c4_generate_full_fallback_or_error (fileJson : FigmaFile)
    (nodeId : Option String) :
    (∀ frame, findFrameNode fileJson.document nodeId = some frame →
      generateFilesFromFigmaFile fileJson nodeId = Except.ok (fullFiles frame)) ∧
      (findFrameNode fileJson.document nodeId = none →
        (∀ fb, fallbackNodeOf fileJson.document = some fb →
          generateFilesFromFigmaFile fileJson nodeId =
              Except.ok (fallbackFiles fb) ∧
            fallbackFiles fb =
              [(kAppJsx, reactAppFromFrame fb),
               (kReadme,
                readmeFallbackPrefix ++ fb.name ++ readmeFallbackSuffix)]) ∧
          (fallbackNodeOf fileJson.document = none →
            generateFilesFromFigmaFile fileJson nodeId =
              Except.error noFrameMsg)) ∧
      (∀ m, generateFilesFromFigmaFile fileJson nodeId = Except.ok m →
        m.map Prod.fst = fullKeys ∨ m.map Prod.fst = fallbackKeys) := by
  refine ⟨?_, ?_, ?_⟩
  · intro frame hf
    simp [generateFilesFromFigmaFile, hf]
  · intro hnone
    refine ⟨?_, ?_⟩
    · intro fb hfb
      exact ⟨by simp [generateFilesFromFigmaFile, hnone, hfb], rfl⟩
    · intro hfb
      simp [generateFilesFromFigmaFile, hnone, hfb]
  · intro m hm
    cases h1 : findFrameNode fileJson.document nodeId with
    | some frame =>
      rw [generateFilesFromFigmaFile, h1] at hm
      cases hm
      left
      simp [fullFiles, fullKeys]
    | none =>
      cases h2 : fallbackNodeOf fileJson.document with
      | some fb =>
        rw [generateFilesFromFigmaFile, h1, h2] at hm
        cases hm
        right
        simp [fallbackFiles, fallbackKeys]
      | none =>
        rw [generateFilesFromFigmaFile, h1, h2] at hm
        cases hm

/-- C4 (witness): the three branches at concrete documents — a one-frame
document (full set), a document with only a TEXT child (fallback set), and a
childless document (the no-frame error). -/
theorem c4_generate_witness :
    generateFilesFromFigmaFile ⟨c4Doc⟩ none = Except.ok (fullFiles c4Frame) ∧
      generateFilesFromFigmaFile ⟨c4Doc2⟩ none =
        Except.ok (fallbackFiles c4Odd) ∧
      generateFilesFromFigmaFile ⟨c4EmptyDoc⟩ none =
        Except.error noFrameMsg := by
  have h1 : findFrameNode c4Doc none = some c4Frame := by
    simp +decide [findFrameNode, firstCandidate, c4Doc, c4Page, c4Frame,
      isFrameCandidate, frameStr, componentStr, instanceStr, groupStr,
      rectangleStr]
  have h2 : findFrameNode c4Doc2 none = none := by
    simp +decide [findFrameNode, firstCandidate, bfsFind, c4Doc2, c4Page2,
      c4Odd, isFrameCandidate, isFrameType, frameStr, componentStr,
      instanceStr, groupStr, rectangleStr]
  have h3 : fallbackNodeOf c4Doc2 = some c4Odd := by
    simp [fallbackNodeOf, c4Doc2, c4Page2]
  have h4 : findFrameNode c4EmptyDoc none = none := by
    simp +decide [findFrameNode, firstCandidate, bfsFind, c4EmptyDoc]
  have h5 : fallbackNodeOf c4EmptyDoc = none := by
    simp [fallbackNodeOf, c4EmptyDoc]
  refine ⟨(c4_generate_full_fallback_or_error ⟨c4Doc⟩ none).1 c4Frame h1,
    (((c4_generate_full_fallback_or_error ⟨c4Doc2⟩ none).2.1 h2).1 c4Odd h3).1,
    ((c4_generate_full_fallback_or_error ⟨c4EmptyDoc⟩ none).2.1 h4).2 h5⟩

/-- C5: the flattener's output is exactly one fragment per node of the
subtree — it equals `nodeToJsx` mapped over the breadth-first visitation
order, which is a permutation of all nodes of the forest (no filtering by
type or visibility) — and on the tree `A(children:[B, C(children:[D])])` the
fragments of A's children come out in the order B, C, D. -/
theorem c5_flatten_breadth_first (nodes : List FNode) (fb : Box) :
    traverseLoop fb nodes = (bfs nodes).map (fun n => nodeToJsx n fb) ∧
      (bfs nodes).Perm (allNodes nodes) ∧
      (traverseLoop fb nodes).length = (allNodes nodes).length ∧
      traverseAndGenerate nodes fb =
        String.intercalate strNewline (traverseLoop fb nodes) ∧
      traverseLoop fb [c5B, c5C] =
        [nodeToJsx c5B fb, nodeToJsx c5C fb, nodeToJsx c5D fb] := by
  refine ⟨traverseLoop_eq_map fb nodes, bfs_perm_allNodes nodes, ?_, rfl, ?_⟩
  · rw [traverseLoop_eq_map, List.length_map]
    exact (bfs_perm_allNodes nodes).length_eq
  · simp [traverseLoop_cons, traverseLoop_nil, c5B, c5C, c5D]

/-- C6 (counterexample): a document whose root node itself has type `FRAME`
but whose only page has no candidate child — a breadth-first search of the
whole tree (root included) finds the root, yet the locator reports
not-found, because its fallback search starts at the pages, not the root. -/
theorem c6_root_frame_counterexample :
    c6Doc.type = frameStr ∧ firstCandidate c6Doc.children = none ∧
      (bfs [c6Doc]).find? isFrameType = some c6Doc ∧
      findFrameNode c6Doc none = none := by
  refine ⟨rfl, ?_, ?_, ?_⟩
  · simp +decide [firstCandidate, c6Doc, c6Page, isFrameCandidate, frameStr,
      componentStr, instanceStr, groupStr, rectangleStr]
  · simp +decide [bfs, c6Doc, c6Page, isFrameType, frameStr]
  · simp +decide [findFrameNode, firstCandidate, bfsFind, c6Doc, c6Page,
      isFrameCandidate, isFrameType, frameStr, componentStr, instanceStr,
      groupStr, rectangleStr]

/-- C6 (amended): with no target id the locator returns the first
candidate-typed direct child over the pages in order, and otherwise the first
node of type exactly `FRAME` in breadth-first order over the pages'
subtrees — the document root itself is excluded from the fallback search;
not-found when both tiers fail. -/
theorem c6_locator_no_id (doc : FNode) :
    findFrameNode doc none = locateNoIdSpec doc := by
  simp only [findFrameNode, locateNoIdSpec, childrenOfPages]
  rw [firstCandidate_eq_find?, bfsFind_eq_find?]

/-- C7: with a target id the locator is the first match of a breadth-first
search of the whole tree from the document root (children in listed order);
it is not-found exactly when no node carries the id; and when the id occurs
exactly once, the result is that unique node — the locator is a pure
function of its input. -/
theorem c7_locator_by_id (doc : FNode) (tid : String) :
    findFrameNode doc (some tid) =
        (bfs [doc]).find? (fun n => n.id == tid) ∧
      ((∀ m ∈ allNodes [doc], ¬m.id = tid) →
        findFrameNode doc (some tid) = none) ∧
      (∀ n ∈ allNodes [doc], n.id = tid →
        (∀ m ∈ allNodes [doc], m.id = tid → m = n) →
        findFrameNode doc (some tid) = some n) := by
  have hfind : findFrameNode doc (some tid) =
      (bfs [doc]).find? (fun n => n.id == tid) := by
    simp only [findFrameNode]
    exact bfsFind_eq_find? _ _
  have hperm := bfs_perm_allNodes [doc]
  refine ⟨hfind, ?_, ?_⟩
  · intro hnone
    rw [hfind, List.find?_eq_none]
    intro x hx
    simp only [beq_iff_eq]
    exact hnone x (hperm.mem_iff.mp hx)
  · intro n hn hid huniq
    rw [hfind]
    have hmem : n ∈ bfs [doc] := hperm.mem_iff.mpr hn
    have hsome : ((bfs [doc]).find? (fun n => n.id == tid)).isSome := by
      rw [List.find?_isSome]
      exact ⟨n, hmem, by simp [hid]⟩
    obtain ⟨m, hm⟩ := Option.isSome_iff_exists.mp hsome
    have hpm := List.find?_some hm
    simp only [beq_iff_eq] at hpm
    have hmmem : m ∈ bfs [doc] := List.mem_of_find?_eq_some hm
    have hmn : m = n := huniq m (hperm.mem_iff.mp hmmem) hpm
    rw [hm, hmn]

/-- C7 (witness): the unique node with id `B`, nested three levels deep, is
located. -/
theorem c7_locator_by_id_witness :
    findFrameNode c7Doc (some c7B.id) = some c7B := by
  have hall : allNodes [c7Doc] = [c7Doc, c7Page, c7Mid, c7B] := by
    simp [allNodes_cons, allNodes_nil, c7Doc, c7Page, c7Mid, c7B]
  apply (c7_locator_by_id c7Doc c7B.id).2.2 c7B
  · rw [hall]
    simp
  · rfl
  · intro m hm hid
    rw [hall] at hm
    simp only [List.mem_cons, List.not_mem_nil, or_false] at hm
    rcases hm with rfl | rfl | rfl | rfl
    · exact absurd hid (by decide)
    · exact absurd hid (by decide)
    · exact absurd hid (by decide)
    · rfl

/-- C8 (counterexample): a TEXT node with `style.fontSize` present but equal
to 0 gets no `fontSize` declaration — the source's JS truthiness test drops
a present zero font size, contradicting the claim for every present
`style.fontSize`. -/
theorem c8_fontsize_zero_counterexample :
    c8Node.type = textStr ∧ fontSizeOf c8Node = some 0 ∧
      textStyleParts c8Node fbZero = stylePartsWithBg c8Node fbZero ∧
      ¬(strFontSize ++ toString (0 : ℚ) ++ strPx) ∈ textStyleParts c8Node fbZero := by
  have hzero : (0 : ℚ) - 0 = 0 := by norm_num
  have hl : leftOf c8Node fbZero = 0 := by
    have h : leftOf c8Node fbZero = jsRound ((0 : ℚ) - 0) := by
      simp [leftOf, boxOf, c8Node, fbZero]
    rw [h, hzero]
    exact jsRound_zero
  have ht : topOf c8Node fbZero = 0 := by
    have h : topOf c8Node fbZero = jsRound ((0 : ℚ) - 0) := by
      simp [topOf, boxOf, c8Node, fbZero]
    rw [h, hzero]
    exact jsRound_zero
  have hw : widthOf c8Node = 0 := by
    have h : widthOf c8Node = jsRound 0 := by
      simp [widthOf, boxOf, c8Node]
    rw [h]
    exact jsRound_zero
  have hh : heightOf c8Node = 0 := by
    have h : heightOf c8Node = jsRound 0 := by
      simp [heightOf, boxOf, c8Node]
    rw [h]
    exact jsRound_zero
  have hbg : bgOf c8Node = none := by
    simp [bgOf, c8Node, fillToCssColor]
  have hparts : textStyleParts c8Node fbZero = stylePartsWithBg c8Node fbZero := by
    simp [textStyleParts, fontSizeOf, c8Node]
  refine ⟨rfl, rfl, hparts, ?_⟩
  rw [hparts]
  simp only [stylePartsWithBg, hbg, baseStyleParts, hl, ht, hw, hh]
  decide

/-- C8 (amended): a TEXT node's fragment body is its `characters` with `&`,
`<`, `>` replaced by their entity forms (per-character escaping, `&` handled
first), and a present *nonzero* `style.fontSize` is additionally declared;
a zero font size is dropped by the source's truthiness test. -/
theorem c8_text_fragment (node : FNode) (fb : Box)
    (htype : node.type = textStr) :
    nodeToJsx node fb =
      strDivOpen ++ String.intercalate strCommaSep (textStyleParts node fb) ++
        strDivMid ++
        String.mk ((node.characters.getD emptyStr).data.flatMap escChar) ++
        strDivClose ∧
      (∀ fs, fontSizeOf node = some fs → ¬fs = 0 →
        textStyleParts node fb =
          stylePartsWithBg node fb ++ [strFontSize ++ toString fs ++ strPx]) := by
  constructor
  · rw [nodeToJsx, if_pos htype]
    have hesc : escapeJsxText (node.characters.getD emptyStr) =
        String.mk ((node.characters.getD emptyStr).data.flatMap escChar) := by
      rw [escapeJsxText, escList_eq_flatMap]
    rw [hesc]
  · intro fs hfs hne
    simp [textStyleParts, hfs, hne]

/-- C8 (witness): a TEXT node `"Hi"` with font size 16 — the fragment body is
the escaped characters and the 16px font size is declared. -/
theorem c8_text_fragment_witness :
    nodeToJsx c8WNode fbZero =
      strDivOpen ++
        String.intercalate strCommaSep (textStyleParts c8WNode fbZero) ++
        strDivMid ++
        String.mk ((c8WNode.characters.getD emptyStr).data.flatMap escChar) ++
        strDivClose ∧
      textStyleParts c8WNode fbZero =
        stylePartsWithBg c8WNode fbZero ++
          [strFontSize ++ toString (16 : ℚ) ++ strPx] := by
  have h := c8_text_fragment c8WNode fbZero rfl
  exact ⟨h.1, h.2 16 rfl (by norm_num)⟩

/-- C9: for a `SOLID` fill with channels `r,g,b` in `[0,1]`, `fillToCssColor`
yields the rgba expression with channels `round(r*255), round(g*255),
round(b*255)` and alpha the numeric `opacity` (1 when absent); a missing
descriptor or a non-SOLID kind yields no color. -/
theorem c9_solid_fill_color (f : Fill) (r g b : ℚ)
    (htype : f.type = solidStr)
    (hcolor : f.color = some ⟨some r, some g, some b⟩)
    (hr0 : 0 ≤ r) (hr1 : r ≤ 1) (hg0 : 0 ≤ g) (hg1 : g ≤ 1)
    (hb0 : 0 ≤ b) (hb1 : b ≤ 1) :
    (∀ o, f.opacity = some o →
      fillToCssColor (some f) =
        some (strRgbaOpen ++ toString (jsRound (r * 255)) ++ strCommaSep ++
          toString (jsRound (g * 255)) ++ strCommaSep ++
          toString (jsRound (b * 255)) ++ strCommaSep ++ toString o ++
          strRgbaClose)) ∧
      (f.opacity = none →
        fillToCssColor (some f) =
          some (strRgbaOpen ++ toString (jsRound (r * 255)) ++ strCommaSep ++
            toString (jsRound (g * 255)) ++ strCommaSep ++
            toString (jsRound (b * 255)) ++ strCommaSep ++
            toString (1 : ℚ) ++ strRgbaClose)) ∧
      fillToCssColor none = none ∧
      (∀ f2 : Fill, ¬f2.type = solidStr → fillToCssColor (some f2) = none) := by
  refine ⟨?_, ?_, rfl, ?_⟩
  · intro o ho
    simp [fillToCssColor, htype, hcolor, ho, colorObjToRgba]
  · intro ho
    simp [fillToCssColor, htype, hcolor, ho, colorObjToRgba]
  · intro f2 h2
    simp [fillToCssColor, h2]

/-- C9 (witness): solid red with opacity 1/2. -/
theorem c9_solid_fill_color_witness :
    (0 : ℚ) ≤ 1 ∧ c9Fill.opacity = some (1 / 2) ∧
      fillToCssColor (some c9Fill) =
        some (strRgbaOpen ++ toString (jsRound ((1 : ℚ) * 255)) ++
          strCommaSep ++ toString (jsRound ((0 : ℚ) * 255)) ++ strCommaSep ++
          toString (jsRound ((0 : ℚ) * 255)) ++ strCommaSep ++
          toString ((1 : ℚ) / 2) ++ strRgbaClose) := by
  refine ⟨by norm_num, rfl, ?_⟩
  exact (c9_solid_fill_color c9Fill 1 0 0 rfl rfl (by norm_num) (by norm_num)
    (by norm_num) (by norm_num) (by norm_num) (by norm_num)).1 (1 / 2) rfl

/-- C10: a `SOLID` fill without a `color` field yields no color, and a node
whose first fill is such a descriptor gets no background declaration (no
default or black background). -/
theorem c10_solid_without_color (node : FNode) (fb : Box) (f : Fill)
    (rest : List Fill) (hf : node.fills = f :: rest)
    (htype : f.type = solidStr) (hc : f.color = none) :
    fillToCssColor (some f) = none ∧ bgOf node = none ∧
      stylePartsWithBg node fb = baseStyleParts node fb := by
  have h1 : fillToCssColor (some f) = none := by
    simp [fillToCssColor, htype, hc]
  have h2 : bgOf node = none := by
    simp [bgOf, hf, h1]
  exact ⟨h1, h2, by simp [stylePartsWithBg, h2]⟩

/-- C10 (witness): the colorless SOLID fill at the head of a node's fills. -/
theorem c10_solid_without_color_witness :
    fillToCssColor (some c10Fill) = none ∧ bgOf c10Node = none ∧
      stylePartsWithBg c10Node fbZero = baseStyleParts c10Node fbZero :=
  c10_solid_without_color c10Node fbZero c10Fill [] rfl rfl rfl
